import Mathlib

/-!
Verification of the Tcl/Tk data-collection hook
(`PyInstaller/utils/hooks/tcl_tk.py`).

The Python module is shallowly embedded as pure Lean functions over an
explicit environment `Env` that supplies the results of all external
collaborators: the interpreter probes (`hookutils.exec_statement`), the
binary dependency scanner (`bindepend.selectImports` / `getImports`),
the filesystem predicates (`os.path.isdir`, `macholib.util.in_system_path`,
reading a text file), and the directory-tree enumerator
(`PyInstaller.building.datastruct.Tree`).  Functions that can raise a
Python exception return `Except PyErr`; a `.error` value models an
uncaught exception crossing that function's boundary.  Path manipulation
(`os.path.dirname` / `basename` / `join`) is embedded with POSIX
semantics, operating on the underlying character lists.
-/

/-- Python exceptions that the embedded code can raise. -/
inductive PyErr where
  | keyError (key : String)
  | ioError (path : String)
  | typeError
  | indexError
deriving DecidableEq, Repr

instance {ε α : Type} [DecidableEq ε] [DecidableEq α] : DecidableEq (Except ε α) := fun a b =>
  match a, b with
  | .error x, .error y =>
    if h : x = y then .isTrue (by rw [h]) else .isFalse (by intro hc; cases hc; exact h rfl)
  | .error _, .ok _ => .isFalse (by intro hc; cases hc)
  | .ok _, .error _ => .isFalse (by intro hc; cases hc)
  | .ok x, .ok y =>
    if h : x = y then .isTrue (by rw [h]) else .isFalse (by intro hc; cases hc; exact h rfl)

/-- A TOC-style 3-tuple `(dest_name, src_path, typecode)` describing one
collected file, as produced by the `Tree` enumerator. -/
structure TocEntry where
  dest : String
  src : String
  typecode : String
deriving DecidableEq, Repr

/-! ### POSIX path primitives (`os.path`), on character lists -/

/-- Test for a non-slash character. -/
def notSlash (c : Char) : Bool := c ≠ '/'

/-- Test for the slash character. -/
def isSlash (c : Char) : Bool := c = '/'

/-- Characters after the last slash of a path (`posixpath.basename`):
`p[p.rfind('/') + 1 :]`. -/
def basenameL (cs : List Char) : List Char :=
  (cs.reverse.takeWhile notSlash).reverse

/-- `os.path.basename`, POSIX semantics. -/
def os_path_basename (p : String) : String :=
  String.mk (basenameL p.data)

/-- `posixpath.dirname`: `head = p[: p.rfind('/') + 1]`; if `head` is
non-empty and not all slashes, strip its trailing slashes. -/
def dirnameL (cs : List Char) : List Char :=
  let tail := (cs.reverse.takeWhile notSlash).reverse
  let head := cs.take (cs.length - tail.length)
  if head.isEmpty then []
  else if head.all isSlash then head
  else (head.reverse.dropWhile isSlash).reverse

/-- `os.path.dirname`, POSIX semantics. -/
def os_path_dirname (p : String) : String :=
  String.mk (dirnameL p.data)

/-- One step of `posixpath.join`: an absolute second component replaces the
first; otherwise the components are glued with `'/'` unless the first is
empty or already ends in `'/'`. -/
def joinL (a b : List Char) : List Char :=
  if b.head? = some '/' then b
  else if a.isEmpty then a ++ b
  else if a.getLast? = some '/' then a ++ b
  else a ++ '/' :: b

/-- `os.path.join` on two components, POSIX semantics. -/
def os_path_join (a b : String) : String :=
  String.mk (joinL a.data b.data)

/-! ### Python string primitives -/

/-- Boolean list-prefix test. -/
def prefixOfL : List Char → List Char → Bool
  | [], _ => true
  | _ :: _, [] => false
  | p :: ps, c :: cs => p = c && prefixOfL ps cs

/-- Boolean list-infix test (`pat in s` for Python strings). -/
def infixOfL (pat : List Char) : List Char → Bool
  | [] => pat.isEmpty
  | c :: cs => prefixOfL pat (c :: cs) || infixOfL pat cs

/-- Python's substring test `pat in s`. -/
def pyContains (s pat : String) : Bool :=
  infixOfL pat.data s.data

/-- Python's `s.endswith(suf)`. -/
def pyEndsWith (s suf : String) : Bool :=
  prefixOfL suf.data.reverse s.data.reverse

/-- Python's `str.lower()` (ASCII case folding suffices for the markers the
code scans for). -/
def pyLower (s : String) : String :=
  String.mk (s.data.map Char.toLower)

/-- `str.split(sep)` with an explicit separator: every occurrence splits,
empty pieces are kept, and the result is never the empty list. -/
def pySplitAux (sep : Char) : List Char → List Char → List String
  | [], acc => [String.mk acc.reverse]
  | c :: cs, acc =>
    if c = sep then String.mk acc.reverse :: pySplitAux sep cs []
    else pySplitAux sep cs (c :: acc)

/-- Python's `s.split(sep)`. -/
def pySplit (s : String) (sep : Char) : List String :=
  pySplitAux sep s.data []

/-- Python truthiness of an `Optional[str]`: `None` and `""` are falsy. -/
def truthy : Option String → Bool
  | none => false
  | some s => !s.isEmpty

/-! ### Python dict on string keys (insertion as assignment, lookup may
raise `KeyError`) -/

/-- `d[k] = v`: replace the binding in place if the key exists, else append. -/
def dictInsert (m : List (String × String)) (k v : String) : List (String × String) :=
  match m with
  | [] => [(k, v)]
  | (k', v') :: rest => if k' = k then (k, v) :: rest else (k', v') :: dictInsert rest k v

/-- `d.get(k)` as an `Option`. -/
def dictLookup : List (String × String) → String → Option String
  | [], _ => none
  | (k', v) :: rest, k => if k' = k then some v else dictLookup rest k

/-- The `mapping` dict of `_find_tcl_tk`:
`for lib in bins: mapping[os.path.basename(lib)] = lib`. -/
def buildMapping (libs : List String) : List (String × String) :=
  libs.foldl (fun m lib => dictInsert m (os_path_basename lib) lib) []

/-! ### fnmatch-style glob matching (used by the spec-modelled `Tree`) -/

/-- fnmatch-style glob matching: `*` matches any run of characters, `?`
matches one character, everything else is literal. -/
def globMatchL : List Char → List Char → Bool
  | [], s => s.isEmpty
  | '*' :: ps, s => s.tails.any (fun t => globMatchL ps t)
  | '?' :: ps, s =>
    match s with
    | [] => false
    | _ :: cs => globMatchL ps cs
  | p :: ps, s =>
    match s with
    | [] => false
    | c :: cs => p = c && globMatchL ps cs

/-- Glob matching on strings. -/
def globMatch (pat s : String) : Bool :=
  globMatchL pat.data s.data

/-! ### The environment: results of all external collaborators -/

/-- Everything the hook observes from outside: probe answers, the binary
dependency scanner, the filesystem, and the `Tree` enumerator.  A field
holds, for each argument the Python code could pass, the value the
collaborator would return on this host. -/
structure Env where
  /-- `compat.is_darwin` -/
  is_darwin : Bool
  /-- `exec_statement("from tkinter import Tcl; print(Tcl().eval('info library'))")` -/
  tcl_library : String
  /-- `exec_statement("from _tkinter import TK_VERSION; print(TK_VERSION)")` -/
  tk_version : String
  /-- `exec_statement("from tkinter import Tcl; print(Tcl().eval('info tclversion'))")` -/
  tcl_version : String
  /-- `bindepend.selectImports(file)`: curated list of `(name, path)` pairs -/
  selectImports : String → List (String × String)
  /-- `bindepend.getImports(file)`: full set of linked-image paths -/
  getImports : String → List String
  /-- `os.path.isdir` -/
  isdir : String → Bool
  /-- `macholib.util.in_system_path` -/
  in_system_path : String → Bool
  /-- reading a text file as its list of lines; `none` models an OS-level
  failure of `open()` / decoding (an `OSError`/`UnicodeDecodeError`) -/
  read_lines : String → Option (List String)
  /-- `Tree(root, prefix=pfx, excludes=ex)` (external collaborator) -/
  tree : String → String → List String → List TocEntry

/-! ### The embedded hook functions -/

/-- The absolute path of the `init.tcl` script named by the manifest:
`[r[1] for r in tcltree if r[1].endswith('init.tcl')][0]`, with the
`IndexError` of an empty comprehension mapped to `none`. -/
def findInitResource (tcltree : List TocEntry) : Option String :=
  ((tcltree.filter (fun r => pyEndsWith r.src "init.tcl")).map (fun r => r.src)).head?

/-- `line.strip().lower()`, the per-line normalisation of the scan loop. -/
def normLine (l : String) : String :=
  pyLower l.trim

/-- The scanning loop of `_warn_if_activetcl_or_teapot_installed`: fold the
two mention flags over the lines, skipping comment lines and breaking as
soon as both markers have been seen. -/
def scanLines : List String → Bool → Bool → Bool × Bool
  | [], a, t => (a, t)
  | l :: rest, a, t =>
    let line := normLine l
    if line.startsWith "#" then scanLines rest a t
    else
      let a' := a || pyContains line "activetcl"
      let t' := t || pyContains line "teapot"
      if a' && t' then (a', t') else scanLines rest a' t'

/-- The advisory warning text (abstracted; the claims only count warnings
and the script path they name). -/
def teapotWarning (init_resource : String) : String :=
  "ActiveTcl/Teapot build detected, see issue 621: " ++ init_resource

/-- `_warn_if_activetcl_or_teapot_installed(tcl_root, tcltree)`: returns the
list of emitted warnings, or the uncaught exception of a failing `open()`. -/
def _warn_if_activetcl_or_teapot_installed (env : Env) (tcl_root : String)
    (tcltree : List TocEntry) : Except PyErr (List String) :=
  if env.in_system_path tcl_root then .ok []
  else
    match findInitResource tcltree with
    | none => .ok []
    | some init_resource =>
      match env.read_lines init_resource with
      | none => .error (.ioError init_resource)
      | some ls =>
        let flags := scanLines ls false false
        if flags.1 && flags.2 then .ok [teapotWarning init_resource] else .ok []

/-- `_find_tcl_tk_dir()`: the platform-agnostic derivation — library root
from the probe, widget root the sibling `"tk" + TK_VERSION` directory. -/
def _find_tcl_tk_dir (env : Env) : String × String :=
  let tcl_root := env.tcl_library
  let tk_root := os_path_join (os_path_dirname tcl_root) ("tk" ++ env.tk_version)
  (tcl_root, tk_root)

/-- The macOS `bins` computation of `_find_tcl_tk`: the curated import list
if non-empty, otherwise the reformatted full import set (whose unguarded
`mapping['Tcl']` / `mapping['Tk']` lookups may raise `KeyError`);
`.ok none` models the `return None, None` of a fully empty scan. -/
def _darwin_bins (env : Env) (tkinter_ext_file : String) :
    Except PyErr (Option (List (String × String))) :=
  match env.selectImports tkinter_ext_file with
  | [] =>
    match env.getImports tkinter_ext_file with
    | [] => .ok none
    | libs =>
      let mapping := buildMapping libs
      match dictLookup mapping "Tcl" with
      | none => .error (.keyError "Tcl")
      | some tclPath =>
        match dictLookup mapping "Tk" with
        | none => .error (.keyError "Tk")
        | some tkPath => .ok (some [("Tcl", tclPath), ("Tk", tkPath)])
  | bins => .ok (some bins)

/-- The path segment identifying a system-provided Tcl framework. -/
def tclFrameworkSegment : String := "Library/Frameworks/Tcl.framework"

/-- `_find_tcl_tk(tkinter_ext_file)`: platform-specific resolution of the
two data roots.  `(none, none)` models Python's `(None, None)`. -/
def _find_tcl_tk (env : Env) (tkinter_ext_file : String) :
    Except PyErr (Option String × Option String) :=
  if env.is_darwin then
    match _darwin_bins env tkinter_ext_file with
    | .error e => .error e
    | .ok none => .ok (none, none)
    | .ok (some bins) =>
      match bins with
      | [] => .error .indexError
      | (_, path_to_tcl) :: _ =>
        if pyContains path_to_tcl tclFrameworkSegment then .ok (none, none)
        else .ok (some (_find_tcl_tk_dir env).1, some (_find_tcl_tk_dir env).2)
  else
    .ok (some (_find_tcl_tk_dir env).1, some (_find_tcl_tk_dir env).2)

/-- `_collect_tcl_modules(tcl_root)`: enumerate `$tcl_root/../tclX` with
prefix `tclX`, `X` the Tcl major version; empty if the directory is
missing. -/
def _collect_tcl_modules (env : Env) (tcl_root : String) : List TocEntry :=
  let tcl_version := (pySplit env.tcl_version '.').headD ""
  let modules_dirname := "tcl" ++ tcl_version
  let modules_path := os_path_join (os_path_join tcl_root "..") modules_dirname
  if !env.isdir modules_path then []
  else env.tree modules_path modules_dirname []

/-- The exclusion globs applied to the Tcl data root. -/
def tclExcludes : List String := ["demos", "*.lib", "tclConfig.sh"]

/-- The exclusion globs applied to the Tk data root. -/
def tkExcludes : List String := ["demos", "*.lib", "tkConfig.sh"]

/-- The body of `collect_tcl_tk_files` after root resolution: the darwin
both-`None` skip, the brokenness checks, tree enumeration, the macOS
health check, and module collection.  The `.error .typeError` arms model
`os.path.isdir(None)` raising `TypeError` (both are unreachable from
`_find_tcl_tk`'s actual results). -/
def collect_body (env : Env) (tcl_root tk_root : Option String) :
    Except PyErr (List TocEntry) :=
  if env.is_darwin && !truthy tcl_root && !truthy tk_root then .ok []
  else if !truthy tcl_root then .ok []
  else
    match tcl_root with
    | none => .error .typeError
    | some tclr =>
      if !env.isdir tclr then .ok []
      else
        match tk_root with
        | none => .error .typeError
        | some tkr =>
          if !env.isdir tkr then .ok []
          else
            let tcltree := env.tree tclr "tcl" tclExcludes
            let tktree := env.tree tkr "tk" tkExcludes
            if env.is_darwin then
              match _warn_if_activetcl_or_teapot_installed env tclr tcltree with
              | .error e => .error e
              | .ok _ => .ok (tcltree ++ tktree ++ _collect_tcl_modules env tclr)
            else .ok (tcltree ++ tktree ++ _collect_tcl_modules env tclr)

/-- `collect_tcl_tk_files(tkinter_ext_file)`: the public entry point. -/
def collect_tcl_tk_files (env : Env) (tkinter_ext_file : String) :
    Except PyErr (List TocEntry) :=
  match _find_tcl_tk env tkinter_ext_file with
  | .error e => .error e
  | .ok (tcl_root, tk_root) => collect_body env tcl_root tk_root

/-! ### Spec-side definitions -/

/-- A data root that the entry point's brokenness checks reject: `None`, or
not an existing directory on disk. -/
def badRoot (env : Env) : Option String → Bool
  | none => true
  | some s => !env.isdir s

/-- The marker `marker` occurs (case-insensitively) on some non-comment
line. -/
def mentionsMarker (lines : List String) (marker : String) : Bool :=
  lines.any (fun l => !(normLine l).startsWith "#" && pyContains (normLine l) marker)

/-- Modelled from the spec: the directory-tree enumerator
(`PyInstaller.building.datastruct.Tree`), whose code is not under `src/`.
Per the spec it returns, "given a root path, a destination prefix, and a
list of exclusion glob patterns, ... an ordered sequence of
FileManifestEntry covering all files/directories under the root not
matched by an exclusion pattern".  `listing root` gives the relative
paths of the files under `root`; a path is excluded when one of its
slash-separated components matches one of the glob patterns (excluding a
directory name prunes everything below it). -/
def treeFromSpec (listing : String → List String) (root pfx : String)
    (excludes : List String) : List TocEntry :=
  (listing root).filterMap fun rel =>
    if (pySplit rel '/').any (fun comp => excludes.any (fun pat => globMatch pat comp)) then none
    else some ⟨pfx ++ "/" ++ rel, root ++ "/" ++ rel, "DATA"⟩

/-! ### Helper lemmas about the path primitives -/

theorem takeWhile_all_append {α : Type} (p : α → Bool) (l1 : List α) (x : α) (l2 : List α)
    (h1 : ∀ c ∈ l1, p c = true) (hx : p x = false) :
    (l1 ++ x :: l2).takeWhile p = l1 := by
  induction l1 with
  | nil => simp [List.takeWhile_cons, hx]
  | cons a as ih =>
    have ha : p a = true := h1 a (by simp)
    simp only [List.cons_append, List.takeWhile_cons, ha, if_true]
    rw [ih (fun c hc => h1 c (by simp [hc]))]

theorem joinL_std (a b : List Char) (hb : b.head? ≠ some '/') (ha : a ≠ [])
    (hlast : a.getLast? ≠ some '/') : joinL a b = a ++ '/' :: b := by
  unfold joinL
  rw [if_neg hb, if_neg (by simp [List.isEmpty_iff, ha]), if_neg hlast]

theorem dirnameL_sep (d name : List Char) (hd : d ≠ []) (hlast : d.getLast? ≠ some '/')
    (hname : '/' ∉ name) : dirnameL (d ++ '/' :: name) = d := by
  have hrev : (d ++ '/' :: name).reverse = name.reverse ++ '/' :: d.reverse := by
    simp
  have htw : ((d ++ '/' :: name).reverse.takeWhile notSlash).reverse = name := by
    rw [hrev, takeWhile_all_append notSlash name.reverse '/' d.reverse
      (fun c hc => by
        simp only [notSlash, decide_eq_true_eq]
        exact fun h => hname (h ▸ (List.mem_reverse.mp hc)))
      (by simp [notSlash]), List.reverse_reverse]
  have hlen : (d ++ '/' :: name).length - name.length = d.length + 1 := by
    simp [List.length_append]
    omega
  have hhead : (d ++ '/' :: name).take (d.length + 1) = d ++ ['/'] := by
    rw [List.take_append_eq_append_take, List.take_of_length_le (by omega)]
    simp
  -- the last character of `d` witnesses that `head` is not all slashes
  have hne : d.getLast hd ≠ '/' := by
    intro hc
    exact hlast (by rw [List.getLast?_eq_getLast d hd, hc])
  have hmem : d.getLast hd ∈ d := List.getLast_mem hd
  have hall : (d ++ ['/']).all isSlash = false := by
    rw [Bool.eq_false_iff]
    intro hc
    rw [List.all_eq_true] at hc
    exact hne (by simpa [isSlash] using hc (d.getLast hd) (by simp [hmem]))
  have hdrop : ((d ++ ['/']).reverse.dropWhile isSlash).reverse = d := by
    rw [List.reverse_append]
    simp only [List.reverse_cons, List.reverse_nil, List.nil_append, List.singleton_append,
      List.dropWhile_cons]
    rw [if_pos (by simp [isSlash])]
    have hhq : d.reverse.head? = some (d.getLast hd) := by
      rw [List.head?_reverse, List.getLast?_eq_getLast d hd]
    match hr : d.reverse with
    | [] => exact absurd hr (by simp [hd])
    | e :: es =>
      have he : e = d.getLast hd := by rw [hr] at hhq; simpa using hhq
      rw [List.dropWhile_cons, if_neg (by simp [isSlash, he, hne])]
      rw [← hr, List.reverse_reverse]
  unfold dirnameL
  simp only [htw, hlen, hhead]
  rw [if_neg (by simp [List.isEmpty_iff]), if_neg (by simp [hall]), hdrop]

theorem string_ne_data {d : String} (h : d ≠ "") : d.data ≠ [] := by
  intro hc
  exact h (String.ext (by rw [hc]))

/-- `os.path.dirname` really computes the parent directory: stripping a
slash-free final component recovers the prefix before the separator. -/
theorem os_path_dirname_sep (d name : String) (h2 : d ≠ "")
    (h3 : d.data.getLast? ≠ some '/') (h4 : '/' ∉ name.data) :
    os_path_dirname (d ++ "/" ++ name) = d := by
  unfold os_path_dirname
  have hs : ("/" : String).data = ['/'] := by decide
  have hdata : (d ++ "/" ++ name).data = d.data ++ '/' :: name.data := by
    rw [String.data_append, String.data_append, hs]
    simp
  rw [hdata, dirnameL_sep d.data name.data (string_ne_data h2) h3 h4]

/-- `os.path.join` of a well-formed directory and a relative component is
plain concatenation with a slash. -/
theorem os_path_join_sep (d b : String) (h2 : d ≠ "")
    (h3 : d.data.getLast? ≠ some '/') (hb : b.data.head? ≠ some '/') :
    os_path_join d b = d ++ "/" ++ b := by
  unfold os_path_join
  apply String.ext
  have hs : ("/" : String).data = ['/'] := by decide
  rw [joinL_std d.data b.data hb (string_ne_data h2) h3]
  rw [String.data_append, String.data_append, hs]
  simp

/-! ### Claim C2 -/

/-- C2: on every non-macOS platform, `_find_tcl_tk` returns the probed
core-library path together with the sibling directory named
`"tk" + TK_VERSION` under the parent directory of that core-library
path, for any well-formed probed path `d ++ "/" ++ name`. -/
theorem c2_non_macos_sibling_derivation (env : Env) (f d name : String)
    (h0 : env.is_darwin = false)
    (h1 : env.tcl_library = d ++ "/" ++ name)
    (h2 : d ≠ "") (h3 : d.data.getLast? ≠ some '/') (h4 : '/' ∉ name.data) :
    _find_tcl_tk env f =
      .ok (some env.tcl_library, some (d ++ "/" ++ ("tk" ++ env.tk_version))) := by
  unfold _find_tcl_tk
  simp only [h0, Bool.false_eq_true, if_false, _find_tcl_tk_dir]
  have htk : ("tk" ++ env.tk_version).data.head? ≠ some '/' := by
    rw [String.data_append, show ("tk" : String).data = ['t', 'k'] from by decide]
    simp
  rw [h1, os_path_dirname_sep d name h2 h3 h4, os_path_join_sep d _ h2 h3 htk]

/-- A host with a standard non-macOS Tcl/Tk layout. -/
def envC2 : Env := Env.mk false "/usr/lib/tcl8.6" "8.6" "8.6"
  (fun _ => []) (fun _ => []) (fun _ => true) (fun _ => false)
  (fun _ => some []) (fun _ _ _ => [])

theorem c2_non_macos_sibling_derivation_witness :
    _find_tcl_tk envC2 "/usr/lib/python3.9/lib-dynload/_tkinter.so" =
      .ok (some envC2.tcl_library, some ("/usr/lib" ++ "/" ++ ("tk" ++ envC2.tk_version))) :=
  c2_non_macos_sibling_derivation envC2 "/usr/lib/python3.9/lib-dynload/_tkinter.so"
    "/usr/lib" "tcl8.6" rfl (by decide) (by decide) (by decide) (by decide)

/-! ### Claim C9 -/

/-- C9: on non-macOS platforms the result of `_find_tcl_tk` depends only on
the two probe answers — not on the extension-module argument and not on
the binary dependency scanner (two environments may differ arbitrarily in
`selectImports`/`getImports` and in every other field but the probes). -/
theorem c9_non_macos_scanner_independence (e1 e2 : Env) (f1 f2 : String)
    (h1 : e1.is_darwin = false) (h2 : e2.is_darwin = false)
    (h3 : e1.tcl_library = e2.tcl_library) (h4 : e1.tk_version = e2.tk_version) :
    _find_tcl_tk e1 f1 = _find_tcl_tk e2 f2 := by
  unfold _find_tcl_tk
  simp [h1, h2, _find_tcl_tk_dir, h3, h4]

/-- Like `envC2` but with a scanner that would report linked images. -/
def envC9 : Env := Env.mk false "/usr/lib/tcl8.6" "8.6" "8.7"
  (fun f => [("Tcl", f)]) (fun f => [f]) (fun _ => false) (fun _ => true)
  (fun _ => none) (fun root pfx _ => [TocEntry.mk pfx root "DATA"])

theorem c9_non_macos_scanner_independence_witness :
    _find_tcl_tk envC2 "/a/_tkinter.so" = _find_tcl_tk envC9 "/b/_tkinter.so" :=
  c9_non_macos_scanner_independence envC2 envC9 "/a/_tkinter.so" "/b/_tkinter.so"
    rfl rfl rfl rfl

/-! ### Claim C1 -/

/-- `_find_tcl_tk` only ever resolves to `(None, None)` or to the pair
produced by `_find_tcl_tk_dir`. -/
theorem find_tcl_tk_shape (env : Env) (f : String) (a b : Option String)
    (h : _find_tcl_tk env f = .ok (a, b)) :
    (a = none ∧ b = none) ∨
    (a = some (_find_tcl_tk_dir env).1 ∧ b = some (_find_tcl_tk_dir env).2) := by
  unfold _find_tcl_tk at h
  split at h
  · split at h
    · exact Except.noConfusion h
    · simp only [Except.ok.injEq, Prod.mk.injEq] at h
      exact Or.inl ⟨h.1.symm, h.2.symm⟩
    · split at h
      · exact Except.noConfusion h
      · split at h
        · simp only [Except.ok.injEq, Prod.mk.injEq] at h
          exact Or.inl ⟨h.1.symm, h.2.symm⟩
        · simp only [Except.ok.injEq, Prod.mk.injEq] at h
          exact Or.inr ⟨h.1.symm, h.2.symm⟩
  · simp only [Except.ok.injEq, Prod.mk.injEq] at h
    exact Or.inr ⟨h.1.symm, h.2.symm⟩

/-- C1: whenever resolution yields a tcl root that is `None` (or empty), or
either resolved root is not an existing directory on disk,
`collect_tcl_tk_files` returns an empty manifest and raises nothing. -/
theorem c1_bad_roots_empty_manifest (env : Env) (f : String) (a b : Option String)
    (h : _find_tcl_tk env f = .ok (a, b))
    (hbad : badRoot env a = true ∨ badRoot env b = true) :
    collect_tcl_tk_files env f = .ok [] := by
  have hcb : collect_tcl_tk_files env f = collect_body env a b := by
    unfold collect_tcl_tk_files
    rw [h]
  rw [hcb]
  rcases find_tcl_tk_shape env f a b h with ⟨ha, hb⟩ | ⟨ha, hb⟩
  · subst ha; subst hb
    cases hd : env.is_darwin <;> simp [collect_body, truthy, hd]
  · subst ha; subst hb
    unfold collect_body
    cases hX : (_find_tcl_tk_dir env).1.isEmpty with
    | true =>
      simp only [truthy, hX, Bool.not_true, Bool.not_false, Bool.and_false, Bool.false_and,
        Bool.and_true]
      split
      · rfl
      · simp
    | false =>
      simp only [truthy, hX, Bool.not_true, Bool.not_false, Bool.and_false, Bool.false_and,
        Bool.and_true, Bool.not_not]
      cases hdx : env.isdir (_find_tcl_tk_dir env).1 with
      | false => simp
      | true =>
        have hbadb : env.isdir (_find_tcl_tk_dir env).2 = false := by
          rcases hbad with hba | hbb
          · rw [badRoot, hdx] at hba
            exact absurd hba (by simp)
          · rw [badRoot] at hbb
            simpa using hbb
        simp [hdx, hbadb]

/-- A host whose probed Tcl directory does not exist on disk. -/
def envC1 : Env := Env.mk false "/usr/lib/tcl8.6" "8.6" "8.6"
  (fun _ => []) (fun _ => []) (fun _ => false) (fun _ => false)
  (fun _ => some []) (fun root pfx _ => [TocEntry.mk pfx root "DATA"])

theorem c1_bad_roots_empty_manifest_witness :
    badRoot envC1 (some "/usr/lib/tcl8.6") = true ∧
      collect_tcl_tk_files envC1 "/e/_tkinter.so" = .ok [] :=
  ⟨by decide,
    c1_bad_roots_empty_manifest envC1 "/e/_tkinter.so"
      (some "/usr/lib/tcl8.6") (some "/usr/lib/tk8.6") (by decide) (Or.inl (by decide))⟩

/-! ### Claim C3 (corrected) and Claim C10 -/

/-- On a macOS host where the curated import subset is empty and the full
linked-image set is non-empty but has no image whose base name is `Tcl`,
`_find_tcl_tk` raises (`KeyError`) instead of skipping or falling back —
a counterexample to C3's "in every other macOS case it falls back to the
standard sibling-directory derivation". -/
def envC3 : Env := Env.mk true "/usr/lib/tcl8.6" "8.6" "8.6"
  (fun _ => []) (fun _ => ["/opt/homebrew/lib/libfoo.dylib"]) (fun _ => true) (fun _ => false)
  (fun _ => some []) (fun _ _ _ => [])

theorem c3_counterexample :
    _find_tcl_tk envC3 "/ext/_tkinter.so" = .error (.keyError "Tcl") ∧
      _find_tcl_tk envC3 "/ext/_tkinter.so" ≠
        .ok (some (_find_tcl_tk_dir envC3).1, some (_find_tcl_tk_dir envC3).2) ∧
      _find_tcl_tk envC3 "/ext/_tkinter.so" ≠ .ok (none, none) := by
  refine ⟨by decide, by decide, by decide⟩

/-- C3 as amended: on macOS, `_find_tcl_tk` returns `(None, None)` in
exactly two skip cases — a fully empty scan (curated subset and full set
both empty), and a first/`Tcl` image path containing the segment
`Library/Frameworks/Tcl.framework` — and in every other macOS case in
which the `'Tcl'`/`'Tk'` base-name lookups cannot fail (curated subset
non-empty, or both lookups succeeding on the full set) it falls back to
the standard sibling-directory derivation. -/
theorem c3_amended_macos_skip_cases (env : Env) (f : String) (hd : env.is_darwin = true) :
    (env.selectImports f = [] → env.getImports f = [] →
      _find_tcl_tk env f = .ok (none, none)) ∧
    (∀ n p rest, env.selectImports f = (n, p) :: rest →
      _find_tcl_tk env f =
        (if pyContains p tclFrameworkSegment then .ok (none, none)
         else .ok (some (_find_tcl_tk_dir env).1, some (_find_tcl_tk_dir env).2))) ∧
    (∀ tclPath tkPath, env.selectImports f = [] → env.getImports f ≠ [] →
      dictLookup (buildMapping (env.getImports f)) "Tcl" = some tclPath →
      dictLookup (buildMapping (env.getImports f)) "Tk" = some tkPath →
      _find_tcl_tk env f =
        (if pyContains tclPath tclFrameworkSegment then .ok (none, none)
         else .ok (some (_find_tcl_tk_dir env).1, some (_find_tcl_tk_dir env).2))) := by
  refine ⟨?_, ?_, ?_⟩
  · intro hsel hget
    unfold _find_tcl_tk _darwin_bins
    rw [hsel, hget]
    simp [hd]
  · intro n p rest hsel
    unfold _find_tcl_tk _darwin_bins
    rw [hsel]
    simp [hd]
  · intro tclPath tkPath hsel hget htcl htk
    unfold _find_tcl_tk _darwin_bins
    rw [hsel]
    match hg : env.getImports f with
    | [] => exact absurd hg hget
    | l :: ls =>
      rw [hg] at htcl htk
      dsimp only
      rw [htcl, htk]
      simp [hd]

/-- A macOS host with a bundled (python.org-style) Tcl/Tk, reported by the
curated import subset. -/
def envC3b : Env := Env.mk true "/Library/Frameworks/Python.framework/Versions/3.9/lib/tcl8.6"
  "8.6" "8.6"
  (fun _ => [("libtcl8.6.dylib", "/Library/Frameworks/Python.framework/Versions/3.9/lib/libtcl8.6.dylib")])
  (fun _ => []) (fun _ => true) (fun _ => false) (fun _ => some []) (fun _ _ _ => [])

theorem c3_amended_macos_skip_cases_witness :
    _find_tcl_tk envC3b "/ext/_tkinter.so" =
      .ok (some (_find_tcl_tk_dir envC3b).1, some (_find_tcl_tk_dir envC3b).2) := by
  have h := (c3_amended_macos_skip_cases envC3b "/ext/_tkinter.so" rfl).2.1
    "libtcl8.6.dylib" "/Library/Frameworks/Python.framework/Versions/3.9/lib/libtcl8.6.dylib"
    [] rfl
  rw [h]
  decide

/-- Inserting a key different from `k` leaves a failed lookup of `k`
failed. -/
theorem dictLookup_dictInsert_none (m : List (String × String)) (k' v k : String)
    (hne : k' ≠ k) (h : dictLookup m k = none) :
    dictLookup (dictInsert m k' v) k = none := by
  induction m with
  | nil => simp [dictInsert, dictLookup, hne]
  | cons p rest ih =>
    obtain ⟨pk, pv⟩ := p
    by_cases hpk : pk = k'
    · subst hpk
      rw [dictLookup] at h
      rw [dictInsert, if_pos rfl, dictLookup, if_neg hne]
      rw [if_neg hne] at h
      exact h
    · rw [dictLookup] at h
      by_cases hpkk : pk = k
      · rw [if_pos hpkk] at h
        exact absurd h (by simp)
      · rw [if_neg hpkk] at h
        rw [dictInsert, if_neg hpk, dictLookup, if_neg hpkk]
        exact ih h

/-- If no element of `libs` has base name `k`, the mapping built from
`libs` has no binding for `k`. -/
theorem buildMapping_lookup_none (libs : List String) (k : String)
    (h : ∀ lib ∈ libs, os_path_basename lib ≠ k) :
    dictLookup (buildMapping libs) k = none := by
  suffices haux : ∀ m, dictLookup m k = none →
      dictLookup (libs.foldl (fun m lib => dictInsert m (os_path_basename lib) lib) m) k = none by
    exact haux [] rfl
  induction libs with
  | nil => intro m hm; simpa using hm
  | cons l ls ih =>
    intro m hm
    rw [List.foldl_cons]
    exact ih (fun lib hlib => h lib (by simp [hlib]))
      (dictInsert m (os_path_basename l) l)
      (dictLookup_dictInsert_none m (os_path_basename l) l k (h l (by simp)) hm)

/-- C10: on macOS, when the curated subset is empty and the full
linked-image set is non-empty but contains no path with base name `Tcl`
or `Tk`, the unguarded `mapping['Tcl']` lookup raises `KeyError`, and the
exception propagates out of the public `collect_tcl_tk_files` boundary
instead of degrading to an empty manifest. -/
theorem c10_keyerror_propagates (env : Env) (f : String)
    (hd : env.is_darwin = true) (hsel : env.selectImports f = [])
    (hget : env.getImports f ≠ [])
    (hb : ∀ lib ∈ env.getImports f,
      os_path_basename lib ≠ "Tcl" ∧ os_path_basename lib ≠ "Tk") :
    collect_tcl_tk_files env f = .error (.keyError "Tcl") := by
  have hfind : _find_tcl_tk env f = .error (.keyError "Tcl") := by
    unfold _find_tcl_tk _darwin_bins
    rw [hsel]
    match hg : env.getImports f with
    | [] => exact absurd hg hget
    | l :: ls =>
      have hnone : dictLookup (buildMapping (l :: ls)) "Tcl" = none := by
        apply buildMapping_lookup_none
        intro lib hlib
        exact (hb lib (hg ▸ hlib)).1
      dsimp only
      rw [hnone]
      simp [hd]
  unfold collect_tcl_tk_files
  rw [hfind]

/-- A macOS host whose `_tkinter` links only a non-Tcl/Tk image. -/
def envC10 : Env := Env.mk true "/usr/lib/tcl8.6" "8.6" "8.6"
  (fun _ => []) (fun _ => ["/usr/lib/libz.1.dylib"]) (fun _ => true) (fun _ => false)
  (fun _ => some []) (fun _ _ _ => [])

theorem c10_keyerror_propagates_witness :
    collect_tcl_tk_files envC10 "/ext/_tkinter.so" = .error (.keyError "Tcl") :=
  c10_keyerror_propagates envC10 "/ext/_tkinter.so" rfl rfl
    (by decide) (by decide)

/-! ### Claim C4 -/

/-- The scan loop computes exactly the two "marker occurs on a non-comment
line" flags: the early break can only fire with both flags already true,
so it never changes the outcome. -/
theorem scanLines_flags (ls : List String) (a t : Bool) :
    scanLines ls a t =
      (a || mentionsMarker ls "activetcl", t || mentionsMarker ls "teapot") := by
  induction ls generalizing a t with
  | nil => simp [scanLines, mentionsMarker]
  | cons l rest ih =>
    rw [scanLines]
    dsimp only
    by_cases hc : (normLine l).startsWith "#" = true
    · rw [if_pos hc, ih]
      simp [mentionsMarker, List.any_cons, hc]
    · rw [if_neg hc]
      by_cases hb : ((a || pyContains (normLine l) "activetcl") &&
          (t || pyContains (normLine l) "teapot")) = true
      · rw [if_pos hb]
        obtain ⟨ha', ht'⟩ := Bool.and_eq_true_iff.mp hb
        simp [mentionsMarker, List.any_cons, hc, ← Bool.or_assoc, ha', ht']
      · rw [if_neg hb, ih]
        simp [mentionsMarker, List.any_cons, hc, Bool.or_assoc]

/-- C4: when the health check reaches the scan (non-system root, an
`init.tcl` entry located, the file readable), it emits exactly one
warning if and only if both markers occur case-insensitively on
non-comment lines (same or different lines), and none otherwise —
in particular none when the markers appear only in comment lines. -/
theorem c4_warning_iff_both_markers (env : Env) (root : String) (tcltree : List TocEntry)
    (p : String) (lines : List String)
    (hsys : env.in_system_path root = false)
    (hfind : findInitResource tcltree = some p)
    (hread : env.read_lines p = some lines) :
    _warn_if_activetcl_or_teapot_installed env root tcltree =
      .ok (if mentionsMarker lines "activetcl" && mentionsMarker lines "teapot"
           then [teapotWarning p] else []) := by
  unfold _warn_if_activetcl_or_teapot_installed
  rw [hsys]
  simp only [Bool.false_eq_true, if_false]
  rw [hfind]
  dsimp only
  rw [hread]
  dsimp only
  rw [scanLines_flags]
  simp only [Bool.false_or]
  split <;> rfl

/-- A macOS host with a Teapot-distributed ActiveTcl `init.tcl`. -/
def envC4 : Env := Env.mk true "/Library/ActiveTcl/lib/tcl8.6" "8.6" "8.6"
  (fun _ => []) (fun _ => []) (fun _ => true) (fun _ => false)
  (fun _ => some ["# ActiveTcl teapot comment", "package require teapot", "ActiveTcl repo"])
  (fun _ _ _ => [])

/-- The manifest fixture naming the `init.tcl` script. -/
def tcltreeC4 : List TocEntry :=
  [TocEntry.mk "tcl/encoding" "/Library/ActiveTcl/lib/tcl8.6/encoding" "DATA",
   TocEntry.mk "tcl/init.tcl" "/Library/ActiveTcl/lib/tcl8.6/init.tcl" "DATA"]

theorem c4_warning_iff_both_markers_witness :
    _warn_if_activetcl_or_teapot_installed envC4 "/Library/ActiveTcl/lib/tcl8.6" tcltreeC4 =
      .ok (if mentionsMarker ["# ActiveTcl teapot comment", "package require teapot",
            "ActiveTcl repo"] "activetcl" &&
          mentionsMarker ["# ActiveTcl teapot comment", "package require teapot",
            "ActiveTcl repo"] "teapot"
        then [teapotWarning "/Library/ActiveTcl/lib/tcl8.6/init.tcl"] else []) :=
  c4_warning_iff_both_markers envC4 "/Library/ActiveTcl/lib/tcl8.6" tcltreeC4
    "/Library/ActiveTcl/lib/tcl8.6/init.tcl"
    ["# ActiveTcl teapot comment", "package require teapot", "ActiveTcl repo"]
    (by decide) (by decide) (by decide)

/-! ### Claim C5 (corrected) -/

/-- A non-system root whose manifest names an `init.tcl` that cannot be
opened: the uncaught `open()` failure escapes the health check, a
counterexample to C5's unconditional "never raises". -/
def envC5 : Env := Env.mk true "/Library/Tcl" "8.6" "8.6"
  (fun _ => []) (fun _ => []) (fun _ => true) (fun _ => false)
  (fun _ => none) (fun _ _ _ => [])

theorem c5_counterexample :
    _warn_if_activetcl_or_teapot_installed envC5 "/Library/Tcl"
      [TocEntry.mk "tcl/init.tcl" "/Library/Tcl/init.tcl" "DATA"] =
      .error (.ioError "/Library/Tcl/init.tcl") := by
  decide

/-- C5 as amended: provided that, whenever the root is not a system path
and an `init.tcl` manifest entry is located, that file can actually be
read, the health check never raises; it returns at most one advisory
warning, and returns silently (no warnings) for a system root or when no
manifest entry ends with `init.tcl`.  (Being a pure function of its
inputs, it alters nothing.) -/
theorem c5_amended_no_raise (env : Env) (root : String) (tcltree : List TocEntry)
    (hread : ∀ p, env.in_system_path root = false → findInitResource tcltree = some p →
      (env.read_lines p).isSome = true) :
    ∃ logs, _warn_if_activetcl_or_teapot_installed env root tcltree = .ok logs ∧
      logs.length ≤ 1 ∧
      (env.in_system_path root = true → logs = []) ∧
      (findInitResource tcltree = none → logs = []) := by
  by_cases hs : env.in_system_path root = true
  · refine ⟨[], ?_, by simp, fun _ => rfl, fun _ => rfl⟩
    unfold _warn_if_activetcl_or_teapot_installed
    rw [if_pos hs]
  · have hs' : env.in_system_path root = false := by
      rw [Bool.eq_false_iff]; exact hs
    cases hf : findInitResource tcltree with
    | none =>
      refine ⟨[], ?_, by simp, fun _ => rfl, fun _ => rfl⟩
      unfold _warn_if_activetcl_or_teapot_installed
      simp only [hs', Bool.false_eq_true, if_false, hf]
    | some p =>
      have hsome := hread p hs' hf
      obtain ⟨ls, hr⟩ : ∃ ls, env.read_lines p = some ls := by
        cases hrr : env.read_lines p with
        | none => rw [hrr] at hsome; exact absurd hsome (by simp)
        | some ls => exact ⟨ls, rfl⟩
      refine ⟨_, c4_warning_iff_both_markers env root tcltree p ls hs' hf hr, ?_, ?_, ?_⟩
      · split <;> simp
      · intro hcon; exact absurd hcon hs
      · intro hcon; exact Option.noConfusion hcon

theorem c5_amended_no_raise_witness :
    ∃ logs, _warn_if_activetcl_or_teapot_installed envC4 "/Library/ActiveTcl/lib/tcl8.6"
        tcltreeC4 = .ok logs ∧
      logs.length ≤ 1 ∧
      (envC4.in_system_path "/Library/ActiveTcl/lib/tcl8.6" = true → logs = []) ∧
      (findInitResource tcltreeC4 = none → logs = []) :=
  c5_amended_no_raise envC4 "/Library/ActiveTcl/lib/tcl8.6" tcltreeC4 (fun _ _ _ => rfl)

/-! ### Claim C6 -/

/-- The portion of a version string before the first dot — the claim's
reading of `version.split('.')[0]`. -/
def majorOf (version : String) : String :=
  String.mk (version.data.takeWhile (fun c => c ≠ '.'))

/-- The head of a Python split is everything before the first separator. -/
theorem pySplitAux_headD (sep : Char) (cs : List Char) : ∀ acc : List Char,
    (pySplitAux sep cs acc).headD "" =
      String.mk (acc.reverse ++ cs.takeWhile (fun c => c ≠ sep)) := by
  induction cs with
  | nil => intro acc; simp [pySplitAux]
  | cons c cs ih =>
    intro acc
    rw [pySplitAux]
    by_cases hc : c = sep
    · rw [if_pos hc]
      simp [List.takeWhile_cons, hc]
    · rw [if_neg hc, ih (c :: acc)]
      simp [List.takeWhile_cons, hc, List.append_assoc]

/-- `version.split('.')[0]` is the major-version portion before the first
dot. -/
theorem pySplit_major (s : String) :
    (pySplit s '.').headD "" = majorOf s := by
  rw [pySplit, pySplitAux_headD, majorOf]
  simp

theorem string_ne_of_data_ne {s : String} (h : s.data ≠ []) : s ≠ "" :=
  fun hc => h (by rw [hc])

/-- C6: `_collect_tcl_modules` looks at `tcl_root/../tcl<major>`, where
`<major>` is the portion of the probed version string before the first
dot; it returns the empty sequence when that directory does not exist and
otherwise the recursive enumeration of it with every entry prefixed
`tcl<major>`. -/
theorem c6_modules_from_major (env : Env) (root : String)
    (h1 : root ≠ "") (h2 : root.data.getLast? ≠ some '/') :
    _collect_tcl_modules env root =
      (if env.isdir (root ++ "/" ++ ".." ++ "/" ++ ("tcl" ++ majorOf env.tcl_version))
       then env.tree (root ++ "/" ++ ".." ++ "/" ++ ("tcl" ++ majorOf env.tcl_version))
         ("tcl" ++ majorOf env.tcl_version) []
       else []) := by
  unfold _collect_tcl_modules
  dsimp only
  rw [pySplit_major]
  have hdata2 : (root ++ "/" ++ "..").data = root.data ++ '/' :: ['.', '.'] := by
    rw [String.data_append, String.data_append,
      show ("/" : String).data = ['/'] from by decide,
      show (".." : String).data = ['.', '.'] from by decide]
    simp
  have hj1 : os_path_join root ".." = root ++ "/" ++ ".." :=
    os_path_join_sep root ".." h1 h2 (by decide)
  have hne2 : (root ++ "/" ++ "..") ≠ "" := string_ne_of_data_ne (by rw [hdata2]; simp)
  have hlast2 : (root ++ "/" ++ "..").data.getLast? ≠ some '/' := by
    rw [hdata2, List.getLast?_append_cons]
    decide
  have hb2 : ("tcl" ++ majorOf env.tcl_version).data.head? ≠ some '/' := by
    rw [String.data_append, show ("tcl" : String).data = ['t', 'c', 'l'] from by decide]
    simp
  rw [hj1, os_path_join_sep _ _ hne2 hlast2 hb2]
  split <;> simp_all

/-- A non-macOS host with an existing modules directory. -/
def envC6 : Env := Env.mk false "/usr/lib/tcl8.6" "8.6" "8.6"
  (fun _ => []) (fun _ => []) (fun _ => true) (fun _ => false)
  (fun _ => some []) (fun root pfx _ => [TocEntry.mk (pfx ++ "/m.tcl") (root ++ "/m.tcl") "DATA"])

theorem c6_modules_from_major_witness :
    _collect_tcl_modules envC6 "/usr/lib/tcl8.6" =
      (if envC6.isdir ("/usr/lib/tcl8.6" ++ "/" ++ ".." ++ "/" ++ ("tcl" ++ majorOf envC6.tcl_version))
       then envC6.tree ("/usr/lib/tcl8.6" ++ "/" ++ ".." ++ "/" ++ ("tcl" ++ majorOf envC6.tcl_version))
         ("tcl" ++ majorOf envC6.tcl_version) []
       else []) :=
  c6_modules_from_major envC6 "/usr/lib/tcl8.6" (by decide) (by decide)

/-! ### Claim C7 -/

/-- C7: whenever `collect_tcl_tk_files` reaches manifest assembly (both
roots resolved, non-empty, existing directories, health check
returning), the result is exactly core-entries ++ widget-entries ++
module-entries, preserving each sub-sequence's internal order. -/
theorem c7_concatenation_order (env : Env) (f : String) (a b : String)
    (h : _find_tcl_tk env f = .ok (some a, some b))
    (ha : a ≠ "") (hb : b ≠ "")
    (hda : env.isdir a = true) (hdb : env.isdir b = true)
    (hwarn : env.is_darwin = true → ∃ logs,
      _warn_if_activetcl_or_teapot_installed env a (env.tree a "tcl" tclExcludes) = .ok logs)
    (_hne1 : env.tree a "tcl" tclExcludes ≠ []) (_hne2 : env.tree b "tk" tkExcludes ≠ [])
    (_hne3 : _collect_tcl_modules env a ≠ []) :
    collect_tcl_tk_files env f =
      .ok (env.tree a "tcl" tclExcludes ++ env.tree b "tk" tkExcludes ++
        _collect_tcl_modules env a) := by
  have hcb : collect_tcl_tk_files env f = collect_body env (some a) (some b) := by
    unfold collect_tcl_tk_files
    rw [h]
  rw [hcb]
  unfold collect_body
  have hea : a.isEmpty = false := by
    rw [Bool.eq_false_iff]
    intro hc
    exact ha ((String.isEmpty_iff a).mp hc)
  have heb : b.isEmpty = false := by
    rw [Bool.eq_false_iff]
    intro hc
    exact hb ((String.isEmpty_iff b).mp hc)
  cases hdar : env.is_darwin with
  | false => simp [truthy, hea, heb, hda, hdb, hdar]
  | true =>
    obtain ⟨logs, hlogs⟩ := hwarn hdar
    simp [truthy, hea, heb, hda, hdb, hdar, hlogs]

/-- A non-macOS host where all three manifest sources are non-empty. -/
def envC7 : Env := Env.mk false "/usr/lib/tcl8.6" "8.6" "8.6"
  (fun _ => []) (fun _ => []) (fun _ => true) (fun _ => false)
  (fun _ => some []) (fun root pfx _ => [TocEntry.mk (pfx ++ "/a") (root ++ "/a") "DATA"])

theorem c7_concatenation_order_witness :
    collect_tcl_tk_files envC7 "/e/_tkinter.so" =
      .ok (envC7.tree "/usr/lib/tcl8.6" "tcl" tclExcludes ++
        envC7.tree "/usr/lib/tk8.6" "tk" tkExcludes ++
        _collect_tcl_modules envC7 "/usr/lib/tcl8.6") :=
  c7_concatenation_order envC7 "/e/_tkinter.so" "/usr/lib/tcl8.6" "/usr/lib/tk8.6"
    (by decide) (by decide) (by decide) rfl rfl
    (fun hdar => absurd hdar (by decide)) (by decide) (by decide) (by decide)

/-! ### Claim C8 -/

/-- Membership in the spec-modelled tree: exactly the listed relative paths
none of whose components matches an exclusion glob, prefixed and rooted. -/
theorem treeFromSpec_mem (listing : String → List String) (root pfx : String)
    (excludes : List String) (e : TocEntry) :
    e ∈ treeFromSpec listing root pfx excludes ↔
      ∃ rel ∈ listing root,
        (∀ comp ∈ pySplit rel '/', ∀ pat ∈ excludes, globMatch pat comp = false) ∧
        e = TocEntry.mk (pfx ++ "/" ++ rel) (root ++ "/" ++ rel) "DATA" := by
  unfold treeFromSpec
  rw [List.mem_filterMap]
  constructor
  · rintro ⟨rel, hrel, hsome⟩
    by_cases hex : ((pySplit rel '/').any
        (fun comp => excludes.any (fun pat => globMatch pat comp))) = true
    · rw [if_pos hex] at hsome
      exact Option.noConfusion hsome
    · rw [if_neg hex] at hsome
      refine ⟨rel, hrel, ?_, (Option.some.injEq _ _ ▸ hsome).symm⟩
      intro comp hcomp pat hpat
      rw [Bool.eq_false_iff]
      intro hg
      exact hex (by
        rw [List.any_eq_true]
        exact ⟨comp, hcomp, by rw [List.any_eq_true]; exact ⟨pat, hpat, hg⟩⟩)
  · rintro ⟨rel, hrel, hall, he⟩
    refine ⟨rel, hrel, ?_⟩
    rw [if_neg ?_, he]
    rw [Bool.not_eq_true, Bool.eq_false_iff]
    intro hg
    rw [List.any_eq_true] at hg
    obtain ⟨comp, hcomp, hg2⟩ := hg
    rw [List.any_eq_true] at hg2
    obtain ⟨pat, hpat, hg3⟩ := hg2
    exact absurd hg3 (by simp [hall comp hcomp pat hpat])

/-- C8: with the `Tree` collaborator modelled from the spec, the manifest
built from the tcl data root contains no path any of whose components
matches `demos`, `*.lib` or `tclConfig.sh`, the manifest built from the
tk data root none matching `demos`, `*.lib` or `tkConfig.sh`, and every
listed path matching no exclusion is retained in the corresponding
manifest. -/
theorem c8_exclusion_globs (listing : String → List String) (tclroot tkroot : String) :
    (∀ e ∈ treeFromSpec listing tclroot "tcl" tclExcludes,
      ∃ rel ∈ listing tclroot,
        (∀ comp ∈ pySplit rel '/',
          globMatch "demos" comp = false ∧ globMatch "*.lib" comp = false ∧
          globMatch "tclConfig.sh" comp = false) ∧
        e = TocEntry.mk ("tcl" ++ "/" ++ rel) (tclroot ++ "/" ++ rel) "DATA") ∧
    (∀ e ∈ treeFromSpec listing tkroot "tk" tkExcludes,
      ∃ rel ∈ listing tkroot,
        (∀ comp ∈ pySplit rel '/',
          globMatch "demos" comp = false ∧ globMatch "*.lib" comp = false ∧
          globMatch "tkConfig.sh" comp = false) ∧
        e = TocEntry.mk ("tk" ++ "/" ++ rel) (tkroot ++ "/" ++ rel) "DATA") ∧
    (∀ rel ∈ listing tclroot,
      (∀ comp ∈ pySplit rel '/', ∀ pat ∈ tclExcludes, globMatch pat comp = false) →
      TocEntry.mk ("tcl" ++ "/" ++ rel) (tclroot ++ "/" ++ rel) "DATA" ∈
        treeFromSpec listing tclroot "tcl" tclExcludes) ∧
    (∀ rel ∈ listing tkroot,
      (∀ comp ∈ pySplit rel '/', ∀ pat ∈ tkExcludes, globMatch pat comp = false) →
      TocEntry.mk ("tk" ++ "/" ++ rel) (tkroot ++ "/" ++ rel) "DATA" ∈
        treeFromSpec listing tkroot "tk" tkExcludes) := by
  refine ⟨?_, ?_, ?_, ?_⟩
  · intro e he
    obtain ⟨rel, hrel, hall, heq⟩ := (treeFromSpec_mem listing tclroot "tcl" tclExcludes e).mp he
    refine ⟨rel, hrel, ?_, heq⟩
    intro comp hcomp
    exact ⟨hall comp hcomp "demos" (by simp [tclExcludes]),
      hall comp hcomp "*.lib" (by simp [tclExcludes]),
      hall comp hcomp "tclConfig.sh" (by simp [tclExcludes])⟩
  · intro e he
    obtain ⟨rel, hrel, hall, heq⟩ := (treeFromSpec_mem listing tkroot "tk" tkExcludes e).mp he
    refine ⟨rel, hrel, ?_, heq⟩
    intro comp hcomp
    exact ⟨hall comp hcomp "demos" (by simp [tkExcludes]),
      hall comp hcomp "*.lib" (by simp [tkExcludes]),
      hall comp hcomp "tkConfig.sh" (by simp [tkExcludes])⟩
  · intro rel hrel hall
    exact (treeFromSpec_mem listing tclroot "tcl" tclExcludes _).mpr ⟨rel, hrel, hall, rfl⟩
  · intro rel hrel hall
    exact (treeFromSpec_mem listing tkroot "tk" tkExcludes _).mpr ⟨rel, hrel, hall, rfl⟩

/-- A fixture tree holding a `demos/` directory, a `*.lib` file, a
`tclConfig.sh`, and an innocuous sibling. -/
def listingC8 : String → List String :=
  fun _ => ["lib/tclIndex", "demos/hello.tcl", "foo.lib", "tclConfig.sh"]

theorem c8_exclusion_globs_witness :
    TocEntry.mk ("tcl" ++ "/" ++ "lib/tclIndex") ("/tcl" ++ "/" ++ "lib/tclIndex") "DATA" ∈
      treeFromSpec listingC8 "/tcl" "tcl" tclExcludes :=
  (c8_exclusion_globs listingC8 "/tcl" "/tk").2.2.1 "lib/tclIndex" (by decide) (by decide)
